import Mathlib

/-!
# Verification of the wallet_bips HD-wallet derivation library

Shallow embedding of the Rust sources of `wallet_bips` (src/errors.rs,
src/hex.rs, src/mnemonic/mod.rs, src/hd_wallet/{mod,b32,b44,address}.rs).

Machine bytes are `Nat` with explicit bounds; Rust `Result<T, WalletBipError>`
is `Except WalletBipErrM T`; strings are `List Char` or `String` where
convenient. The elliptic-curve primitive (the `bip32` crate: key parsing,
child-key derivation, public projection, Base58Check serialization) and the
hash primitives (`sha2`, `ripemd`, `bs58` crates) are external collaborators
of the repository, not its code; they are modelled abstractly: child-key
derivation is parameterised by an arbitrary key-material combiner `ckd`,
and the hash/Base58 functions are universally-quantified parameters of the
address-builder theorems.  What is verified is exactly the repository's own
logic: path construction, depth policy, payload/checksum assembly, the hex
codec and the mnemonic split.
-/

/-- Mirror of `WalletBipError` (src/errors.rs): the five error variants
`GenerateMnemonic`, `SplitMnemonic`, `Crypto`, `WriteOutput`, `Unexpected`.
The wrapped foreign payloads (`bip39::Error`, `bip32::Error`, `fmt::Error`,
`eyre::Report`) carry no structure the claims need beyond the message
strings of `SplitMnemonic` and `Unexpected`. -/
inductive WalletBipErrM where
  | GenerateMnemonic : WalletBipErrM
  | SplitMnemonic : String → WalletBipErrM
  | Crypto : WalletBipErrM
  | WriteOutput : WalletBipErrM
  | Unexpected : String → WalletBipErrM
  deriving DecidableEq, Repr

instance {ε α : Type} [DecidableEq ε] [DecidableEq α] : DecidableEq (Except ε α)
  | .error e, .error f =>
    if h : e = f then .isTrue (congrArg Except.error h)
    else .isFalse fun hh => h (Except.error.inj hh)
  | .error _, .ok _ => .isFalse fun hh => Except.noConfusion hh
  | .ok _, .error _ => .isFalse fun hh => Except.noConfusion hh
  | .ok a, .ok b =>
    if h : a = b then .isTrue (congrArg Except.ok h)
    else .isFalse fun hh => h (Except.ok.inj hh)

/-- Mirror of the `bip32` crate's extended-key attributes that the
repository's code reads: `depth` (a `u8`) and the child number of the last
derivation step in its serialized `u32` form.  The parent fingerprint and
the raw key bytes are elliptic-curve material owned by the external crate;
the key material is carried as one opaque `Nat`. -/
structure XPrvAttrsM where
  depth : Nat
  childNumber : Nat
  deriving DecidableEq, Repr

/-- Model of `bip32::ExtendedPrivateKey` as far as the repository observes
it: attributes plus opaque key material. -/
structure XPrvM where
  attrs : XPrvAttrsM
  material : Nat
  deriving DecidableEq, Repr

/-- Model of `bip32::ChildNumber`: a 31-bit index plus a hardened flag. -/
structure ChildNumberM where
  index : Nat
  hardened : Bool
  deriving DecidableEq, Repr

/-- Serialized `u32` form of a child number: hardened indices are offset by
`2^31`. -/
def ChildNumberM.value (c : ChildNumberM) : Nat :=
  c.index + if c.hardened then 2 ^ 31 else 0

/-- Modelled from the spec: `bip32::ChildNumber::new(index, hardened)`
(external crate) accepts only indices below `2^31` (the data model's
"index: unsigned 31-bit") and fails with a crypto error otherwise. -/
def childNumberNew (index : Nat) (hardened : Bool) : Except WalletBipErrM ChildNumberM :=
  if index < 2 ^ 31 then .ok ⟨index, hardened⟩ else .error .Crypto

/-- Modelled from the spec (§4.2): the external crate's
`derive_child(parent, child_number)` fails with a crypto error if the
parent depth is already 255 or the HMAC-combine produces an invalid
scalar (abstracted as the combiner `ckd` returning `none`); on success the
result has depth `parent.depth + 1` and records the child number. -/
def deriveChild (ckd : XPrvM → ChildNumberM → Option Nat) (k : XPrvM)
    (cn : ChildNumberM) : Except WalletBipErrM XPrvM :=
  if k.attrs.depth = 255 then .error .Crypto
  else
    match ckd k cn with
    | none => .error .Crypto
    | some m => .ok ⟨⟨k.attrs.depth + 1, cn.value⟩, m⟩

/-- Chained child derivation along a list of child numbers (the Rust code
chains `derive_child` calls; this folds the same steps). -/
def deriveChain (ckd : XPrvM → ChildNumberM → Option Nat) (k : XPrvM) :
    List ChildNumberM → Except WalletBipErrM XPrvM
  | [] => .ok k
  | c :: cs => (deriveChild ckd k c).bind fun k' => deriveChain ckd k' cs

/-- Mirror of `ExtendedPubPrivKey::new` (src/hd_wallet/mod.rs): the pair of
the serialized public and private keys.  Serialization is the external
crate's; `public_key()` preserves the attributes (spec §4.2:
`derive_public` preserves chain code/depth/lineage), so the pair keeps the
private key's model and the public side's attributes. -/
structure ExtendedPubPrivKeyM where
  pubAttrs : XPrvAttrsM
  privkey : XPrvM
  deriving DecidableEq, Repr

def ExtendedPubPrivKeyM.new (k : XPrvM) : ExtendedPubPrivKeyM :=
  ⟨k.attrs, k⟩

/-! ## BIP44 (src/hd_wallet/b44.rs) -/

/-- Mirror of `enum Coin { Btc, Eth }`. -/
inductive Coin where
  | Btc : Coin
  | Eth : Coin
  deriving DecidableEq, Repr

/-- Mirror of `impl From<Coin> for u32`: `Btc => 0, Eth => 60`. -/
def coinTypeFrom : Coin → Nat
  | .Btc => 0
  | .Eth => 60

/-- Mirror of the Rust cast `coin as u32` used at b44.rs line 60: a
fieldless enum without explicit discriminants casts to its
declaration-order discriminant, so `Btc as u32 = 0` and `Eth as u32 = 1`. -/
def coinAsU32 : Coin → Nat
  | .Btc => 0
  | .Eth => 1

/-- Mirror of `Bip44::prepare_account_extended_key` for `BlockExplorer`
(b44.rs lines 43-65): parse (the parse outcome is the `parsed` argument),
reject a non-depth-0 root, then derive
`/44' / (coin as u32)' / account'`. -/
def prepareAccountExtendedKey (ckd : XPrvM → ChildNumberM → Option Nat)
    (parsed : Except WalletBipErrM XPrvM) (coin : Coin) (account : Nat) :
    Except WalletBipErrM ExtendedPubPrivKeyM :=
  parsed.bind fun root =>
    if root.attrs.depth ≠ 0 then
      .error (.Unexpected ("Key depth must be " ++ toString (0 : Nat)))
    else
      ((childNumberNew 44 true).bind fun c1 =>
        (deriveChild ckd root c1).bind fun k1 =>
          (childNumberNew (coinAsU32 coin) true).bind fun c2 =>
            (deriveChild ckd k1 c2).bind fun k2 =>
              (childNumberNew account true).bind fun c3 =>
                (deriveChild ckd k2 c3).map fun k3 =>
                  ExtendedPubPrivKeyM.new k3)

/-- Mirror of `u32::from(is_external)` (b44.rs line 72): `true → 1`,
`false → 0`. -/
def chainIndex (isExternal : Bool) : Nat := if isExternal then 1 else 0

/-- Mirror of `Bip44::prepare_extended_key` for `BlockExplorer`
(b44.rs lines 67-76): parse, then — with no depth check — derive the single
non-hardened child `u32::from(is_external)`. -/
def prepareExtendedKey44 (ckd : XPrvM → ChildNumberM → Option Nat)
    (parsed : Except WalletBipErrM XPrvM) (isExternal : Bool) :
    Except WalletBipErrM ExtendedPubPrivKeyM :=
  parsed.bind fun accountExtended =>
    (childNumberNew (chainIndex isExternal) false).bind fun cn =>
      (deriveChild ckd accountExtended cn).map fun k =>
        ExtendedPubPrivKeyM.new k

/-! ## BIP32 profiles (src/hd_wallet/b32.rs) and the Client trait
(src/hd_wallet/mod.rs) -/

/-- The four concrete `Client` implementations of the repository:
`BitcoinCore`, `Multibit`, `BlockExplorer` of b32.rs, and the BIP44
`BlockExplorer` of b44.rs. -/
inductive ClientProfile where
  | BitcoinCore : ClientProfile
  | Multibit : ClientProfile
  | BlockExplorer32 : ClientProfile
  | BlockExplorer44 : ClientProfile
  deriving DecidableEq, Repr

/-- Mirror of the associated constant `Client::EXTENDED_KEY_DEPTH` of each
implementation. -/
def extendedKeyDepth : ClientProfile → Nat
  | .BitcoinCore => 2
  | .Multibit => 2
  | .BlockExplorer32 => 3
  | .BlockExplorer44 => 4

/-- Mirror of the associated constant `Client::IS_HARDENED_ADDRESSES` of
each implementation. -/
def isHardenedAddresses : ClientProfile → Bool
  | .BitcoinCore => true
  | .Multibit => false
  | .BlockExplorer32 => false
  | .BlockExplorer44 => false

/-- Mirror of the default method `Client::prepare_address` (mod.rs lines
49-64): parse the extended-key text (the parse outcome is the `parsed`
argument), fail with the `Unexpected` ("Key depth must be N") error when
the depth differs from the profile's `EXTENDED_KEY_DEPTH`, otherwise derive
the child at `index` with the profile's hardening flag and hand it to the
address builder (`mkAddr` stands for `Address::new` on the derived pair). -/
def prepareAddress {α : Type} (p : ClientProfile)
    (ckd : XPrvM → ChildNumberM → Option Nat)
    (mkAddr : XPrvM → Except WalletBipErrM α)
    (parsed : Except WalletBipErrM XPrvM) (index : Nat) :
    Except WalletBipErrM α :=
  parsed.bind fun extended =>
    if extended.attrs.depth ≠ extendedKeyDepth p then
      .error (.Unexpected ("Key depth must be " ++ toString (extendedKeyDepth p)))
    else
      (childNumberNew index (isHardenedAddresses p)).bind fun cn =>
        (deriveChild ckd extended cn).bind fun privkey =>
          mkAddr privkey

/-- Mirror of `Bip32::prepare_extended_key` for `BitcoinCore` (b32.rs lines
22-41): reject a non-depth-0 root, then derive `m/0'/0'`. -/
def prepareExtendedKeyBitcoinCore (ckd : XPrvM → ChildNumberM → Option Nat)
    (parsed : Except WalletBipErrM XPrvM) :
    Except WalletBipErrM ExtendedPubPrivKeyM :=
  parsed.bind fun root =>
    if root.attrs.depth ≠ 0 then
      .error (.Unexpected ("Key depth must be " ++ toString (0 : Nat)))
    else
      ((childNumberNew 0 true).bind fun c1 =>
        (deriveChild ckd root c1).bind fun k1 =>
          (childNumberNew 0 true).bind fun c2 =>
            (deriveChild ckd k1 c2).map fun k2 =>
              ExtendedPubPrivKeyM.new k2)

/-- Mirror of `Bip32::prepare_extended_key` for `Multibit` (b32.rs lines
51-70): reject a non-depth-0 root, then derive `m/0'/0`. -/
def prepareExtendedKeyMultibit (ckd : XPrvM → ChildNumberM → Option Nat)
    (parsed : Except WalletBipErrM XPrvM) :
    Except WalletBipErrM ExtendedPubPrivKeyM :=
  parsed.bind fun root =>
    if root.attrs.depth ≠ 0 then
      .error (.Unexpected ("Key depth must be " ++ toString (0 : Nat)))
    else
      ((childNumberNew 0 true).bind fun c1 =>
        (deriveChild ckd root c1).bind fun k1 =>
          (childNumberNew 0 false).bind fun c2 =>
            (deriveChild ckd k1 c2).map fun k2 =>
              ExtendedPubPrivKeyM.new k2)

/-- Mirror of `Bip32::prepare_extended_key` for `BlockExplorer` (b32.rs
lines 79-99): reject a non-depth-0 root, then derive `m/44'/0'/0'`. -/
def prepareExtendedKeyBlockExplorer32 (ckd : XPrvM → ChildNumberM → Option Nat)
    (parsed : Except WalletBipErrM XPrvM) :
    Except WalletBipErrM ExtendedPubPrivKeyM :=
  parsed.bind fun root =>
    if root.attrs.depth ≠ 0 then
      .error (.Unexpected ("Key depth must be " ++ toString (0 : Nat)))
    else
      ((childNumberNew 44 true).bind fun c1 =>
        (deriveChild ckd root c1).bind fun k1 =>
          (childNumberNew 0 true).bind fun c2 =>
            (deriveChild ckd k1 c2).bind fun k2 =>
              (childNumberNew 0 true).bind fun c3 =>
                (deriveChild ckd k2 c3).map fun k3 =>
                  ExtendedPubPrivKeyM.new k3)

/-! ## Hex codec (src/hex.rs) -/

/-- Lowercase hex digit for a value below 16 (what Rust's `{:02x}` emits
per nibble): `0-9` are ASCII 48-57, `a-f` are ASCII 97-102. -/
def hexDigitChar (d : Nat) : Char :=
  if d < 10 then Char.ofNat (48 + d) else Char.ofNat (87 + d)

/-- The two lowercase hex characters `write!(s, "{b:02x}")` appends for a
byte `b < 256`: high nibble then low nibble. -/
def byteHex (b : Nat) : List Char :=
  [hexDigitChar (b / 16), hexDigitChar (b % 16)]

/-- Mirror of `hex::encode` (hex.rs lines 4-18): an optional `0x` prefix,
then each byte as two lowercase hex digits.  The Rust function returns
`Result` only because `write!` into a `String` is fallible in type; it
never fails, so the model is total. -/
def hexEncode (bytes : List Nat) (withPref : Bool) : List Char :=
  (if withPref then ['0', 'x'] else []) ++ bytes.flatMap byteHex

/-- Mirror of `s.strip_prefix("0x").unwrap_or(s)` (hex.rs line 21). -/
def strip0x : List Char → List Char
  | '0' :: 'x' :: rest => rest
  | s => s

/-- Mirror of `hex::from_hex_char` (hex.rs lines 39-46), matching on the
ASCII byte ranges `b'0'..=b'9'`, `b'a'..=b'f'`, `b'A'..=b'F'`. -/
def fromHexChar (c : Char) : Except String Nat :=
  if 48 ≤ c.toNat ∧ c.toNat ≤ 57 then .ok (c.toNat - 48)
  else if 97 ≤ c.toNat ∧ c.toNat ≤ 102 then .ok (c.toNat - 97 + 10)
  else if 65 ≤ c.toNat ∧ c.toNat ≤ 70 then .ok (c.toNat - 65 + 10)
  else .error "invalid hex character"

/-- The pair loop of `hex::decode` (hex.rs lines 30-34): bytes are rebuilt
as `(hi << 4) | lo`.  The singleton case is unreachable behind the
even-length guard; it errs like a malformed pair. -/
def hexDecodePairs : List Char → Except String (List Nat)
  | [] => .ok []
  | [_] => .error "invalid hex character"
  | hi :: lo :: rest =>
    (fromHexChar hi).bind fun h =>
      (fromHexChar lo).bind fun l =>
        (hexDecodePairs rest).map fun out => (h <<< 4 ||| l) :: out

/-- Mirror of `hex::decode` (hex.rs lines 20-37): strip an optional `0x`
prefix, reject odd length, then decode pairs. -/
def hexDecode (s : List Char) : Except String (List Nat) :=
  let s' := strip0x s
  if s'.length % 2 ≠ 0 then .error "hex string has odd length"
  else hexDecodePairs s'

/-! ## Mnemonic engine (src/mnemonic/mod.rs) -/

/-- Mirror of `MIN_NB_WORDS`. -/
def MIN_NB_WORDS : Nat := 12

/-- Mirror of `MAX_NB_WORDS`. -/
def MAX_NB_WORDS : Nat := 24

/-- Mirror of `is_invalid_word_count` (mnemonic/mod.rs lines 20-22). -/
def is_invalid_word_count (wordCount : Nat) : Bool :=
  wordCount < MIN_NB_WORDS || !(wordCount % 3 == 0) || wordCount > MAX_NB_WORDS

/-- Mirror of the placeholder `HIDED` (mnemonic/mod.rs line 25). -/
def HIDED : String := "XXXX"

/-- Mirror of `mnemonic::split` (mnemonic/mod.rs lines 24-44).  The random
shuffle of `(0..len).collect()` by `rand::thread_rng` is the external
randomness source; its outcome is the parameter `perm`, a permutation of
`0, …, len-1` (hypothesised in the theorems).  The code truncates the
shuffled list to `len / 3` and collects it into a `HashSet` used only for
membership tests, which list membership models. -/
def split (perm : List Nat) (mnemonic : List String) :
    Except WalletBipErrM (List String) :=
  if is_invalid_word_count mnemonic.length then
    .error (.SplitMnemonic "invalid word count")
  else
    let values := perm.take (mnemonic.length / 3)
    .ok (mnemonic.enum.map fun p => if p.1 ∈ values then HIDED else p.2)

/-! ## Address builder (src/hd_wallet/address.rs) -/

/-- Model of `dst[start..start+src.len()].copy_from_slice(src)` on a
list-modelled fixed array: splice `src` over that range. -/
def copyFromSlice (dst : List Nat) (start : Nat) (src : List Nat) : List Nat :=
  dst.take start ++ src ++ dst.drop (start + src.length)

/-- Mirror of the `wif` closure (address.rs lines 16-32): a 34-byte payload
array filled with `0x80`, the 32 scalar bytes, `0x01`; a 4-byte checksum
from the double SHA-256; a 38-byte result array of payload then checksum,
Base58-encoded.  `sha256` and `bs58encode` are the external `sha2` and
`bs58` crates. -/
def wif (sha256 : List Nat → List Nat) (bs58encode : List Nat → String)
    (privkey : List Nat) : String :=
  let payload := (List.replicate 34 0).set 0 0x80
  let payload := copyFromSlice payload 1 privkey
  let payload := payload.set 33 0x01
  let checksum := (sha256 (sha256 payload)).take 4
  let result := List.replicate 38 0
  let result := copyFromSlice result 0 payload
  let result := copyFromSlice result 34 checksum
  bs58encode result

/-- Mirror of the `p2pkh` closure (address.rs lines 34-50): a 21-byte
payload array of version `0x00` then the first 20 bytes of
RIPEMD160(SHA256(pubkey)); a 4-byte double-SHA-256 checksum; a 25-byte
result array, Base58-encoded. -/
def p2pkh (sha256 ripemd160 : List Nat → List Nat)
    (bs58encode : List Nat → String) (pubkey : List Nat) : String :=
  let payload := (List.replicate 21 0).set 0 0x00
  let payload := copyFromSlice payload 1 ((ripemd160 (sha256 pubkey)).take 20)
  let checksum := (sha256 (sha256 payload)).take 4
  let result := List.replicate 25 0
  let result := copyFromSlice result 0 payload
  let result := copyFromSlice result 21 checksum
  bs58encode result

/-- Mirror of the `Address` struct (address.rs lines 5-9). -/
structure AddressM where
  hash : String
  pubkey : List Char
  privkey : String
  deriving DecidableEq, Repr

/-- Mirror of `Address::new` (address.rs lines 52-61) on the raw key bytes
`pubkey.to_bytes()` (33 bytes) and `privkey.to_bytes()` (32 bytes). -/
def AddressM.new (sha256 ripemd160 : List Nat → List Nat)
    (bs58encode : List Nat → String)
    (pubkeyBytes privkeyBytes : List Nat) : AddressM :=
  { hash := p2pkh sha256 ripemd160 bs58encode pubkeyBytes
    pubkey := hexEncode pubkeyBytes false
    privkey := wif sha256 bs58encode privkeyBytes }

/-! ## Spec-side formulas (written from the spec's words, for the
refinement claims C5 and C6) -/

/-- Spec formula for WIF: `Base58(payload ‖ checksum)` with
`payload = 0x80 ‖ scalar ‖ 0x01` and
`checksum = first 4 bytes of SHA256(SHA256(payload))`. -/
def wifSpecFormula (sha256 : List Nat → List Nat)
    (bs58encode : List Nat → String) (scalar : List Nat) : String :=
  let payload := 0x80 :: scalar ++ [0x01]
  bs58encode (payload ++ (sha256 (sha256 payload)).take 4)

/-- Spec formula for the P2PKH hash: `Base58(payload ‖ checksum)` with
`payload = 0x00 ‖ first 20 bytes of RIPEMD160(SHA256(pubkey))`. -/
def p2pkhSpecFormula (sha256 ripemd160 : List Nat → List Nat)
    (bs58encode : List Nat → String) (pubkey : List Nat) : String :=
  let payload := 0x00 :: (ripemd160 (sha256 pubkey)).take 20
  bs58encode (payload ++ (sha256 (sha256 payload)).take 4)

/-! ## Helper lemmas and concrete instantiations -/

/-- Concrete key-material combiner for closed evaluations: it records every
derivation step's serialized child number into the key material. -/
def ckdRecorder : XPrvM → ChildNumberM → Option Nat :=
  fun k cn => some (k.material * 2 ^ 32 + cn.value)

/-- Concrete always-succeeding key-material combiner for witnesses. -/
def ckdConst : XPrvM → ChildNumberM → Option Nat := fun _ _ => some 0

/-- Concrete address builder for witnesses. -/
def mkAddrConst : XPrvM → Except WalletBipErrM AddressM := fun _ => .ok ⟨"", [], ""⟩

/-- Concrete SHA-256 stand-in (32-byte output) for witnesses. -/
def shaStub : List Nat → List Nat := fun _ => List.range 32

/-- Concrete RIPEMD-160 stand-in (20-byte output) for witnesses. -/
def ripStub : List Nat → List Nat := fun _ => List.range 20

/-- Concrete Base58 stand-in for witnesses. -/
def b58Stub : List Nat → String := fun l => toString l

theorem deriveChild_ok_attrs {ckd : XPrvM → ChildNumberM → Option Nat}
    {k : XPrvM} {cn : ChildNumberM} {k' : XPrvM}
    (h : deriveChild ckd k cn = .ok k') :
    k'.attrs = ⟨k.attrs.depth + 1, cn.value⟩ := by
  unfold deriveChild at h
  split at h
  · exact Except.noConfusion h
  · split at h
    · exact Except.noConfusion h
    · injection h with h'
      subst h'
      rfl

theorem deriveChain_ok_depth {ckd : XPrvM → ChildNumberM → Option Nat} :
    ∀ (cs : List ChildNumberM) (k k' : XPrvM),
      deriveChain ckd k cs = .ok k' →
      k'.attrs.depth = k.attrs.depth + cs.length := by
  intro cs
  induction cs with
  | nil =>
    intro k k' h
    unfold deriveChain at h
    injection h with h'
    subst h'
    simp
  | cons c cs ih =>
    intro k k' h
    unfold deriveChain at h
    cases hd : deriveChild ckd k c with
    | error e => rw [hd] at h; exact Except.noConfusion h
    | ok k1 =>
      rw [hd] at h
      have h1 := deriveChild_ok_attrs hd
      have h2 := ih k1 k' h
      rw [h2, h1]
      simp
      omega

/-! ## Claim theorems -/

/-- C1: the claim says the coin-level hardened child index equals the BIP44
coin-type constant of the coin (60 for Eth, 0 for Btc).  The code instead
passes the Rust discriminant cast `coin as u32` (1 for Eth) to the
coin-level derivation, bypassing the `From<Coin> for u32` impl (60 for
Eth).  Evaluated with the recording combiner on a depth-0 root: the middle
(coin-level) derivation step for Eth uses serialized child number
`1 + 2^31`, i.e. hardened index 1, not 60. -/
theorem c1_eth_coin_level_index_is_one :
    prepareAccountExtendedKey ckdRecorder (.ok ⟨⟨0, 0⟩, 0⟩) Coin.Eth 0 =
      .ok (ExtendedPubPrivKeyM.new
        ⟨⟨3, 2 ^ 31⟩, ((44 + 2 ^ 31) * 2 ^ 32 + (1 + 2 ^ 31)) * 2 ^ 32 + 2 ^ 31⟩) ∧
    coinAsU32 Coin.Eth = 1 ∧ coinTypeFrom Coin.Eth = 60 ∧
    coinAsU32 Coin.Eth ≠ coinTypeFrom Coin.Eth ∧
    coinAsU32 Coin.Btc = coinTypeFrom Coin.Btc := by decide

/-- C2: the claim says `prepare_extended_key(account_key, is_external)`
derives chain index 0 when `is_external = true` and 1 when
`is_external = false` (the BIP44 convention the spec states).  The code
derives `u32::from(is_external)`, i.e. the opposite mapping: index 1 for
the external request and 0 for the internal one.  Evaluated on a depth-3
account key: the derived child records non-hardened child number 1 for
`is_external = true` and 0 for `is_external = false`. -/
theorem c2_external_request_derives_index_one :
    prepareExtendedKey44 ckdRecorder (.ok ⟨⟨3, 0⟩, 0⟩) true =
      .ok (ExtendedPubPrivKeyM.new ⟨⟨4, 1⟩, 1⟩) ∧
    prepareExtendedKey44 ckdRecorder (.ok ⟨⟨3, 0⟩, 0⟩) false =
      .ok (ExtendedPubPrivKeyM.new ⟨⟨4, 0⟩, 0⟩) ∧
    chainIndex true = 1 ∧ chainIndex false = 0 := by decide

/-- C9: BIP44 `prepare_extended_key` performs no depth validation: for
every parsed key, whatever its depth, it goes straight to deriving the
single non-hardened chain child, so a successful result has the input's
depth + 1, and is a depth-4 key exactly when the input was depth 3. -/
theorem c9_bip44_prepare_extended_key_no_depth_check
    (ckd : XPrvM → ChildNumberM → Option Nat) (k : XPrvM) (e : Bool) :
    prepareExtendedKey44 ckd (.ok k) e =
      (deriveChild ckd k ⟨chainIndex e, false⟩).map ExtendedPubPrivKeyM.new ∧
    ∀ pair, prepareExtendedKey44 ckd (.ok k) e = .ok pair →
      pair.privkey.attrs.depth = k.attrs.depth + 1 ∧
      (pair.privkey.attrs.depth = 4 ↔ k.attrs.depth = 3) := by
  have hcn : childNumberNew (chainIndex e) false = .ok ⟨chainIndex e, false⟩ := by
    cases e <;> decide
  have heq : prepareExtendedKey44 ckd (.ok k) e =
      (deriveChild ckd k ⟨chainIndex e, false⟩).map ExtendedPubPrivKeyM.new := by
    simp [prepareExtendedKey44, Except.bind, hcn]
  refine ⟨heq, ?_⟩
  intro pair hp
  rw [heq] at hp
  cases hd : deriveChild ckd k ⟨chainIndex e, false⟩ with
  | error err => rw [hd] at hp; exact Except.noConfusion hp
  | ok k' =>
    rw [hd] at hp
    injection hp with hp'
    have ha := deriveChild_ok_attrs hd
    subst hp'
    refine ⟨?_, ?_⟩ <;> simp [ExtendedPubPrivKeyM.new, ha]

/-- Witness for C9 at a depth-7 input (not an account key): the derivation
still proceeds and yields depth 8. -/
theorem c9_witness :
    (prepareExtendedKey44 ckdConst (.ok ⟨⟨7, 0⟩, 0⟩) true =
      (deriveChild ckdConst ⟨⟨7, 0⟩, 0⟩ ⟨chainIndex true, false⟩).map
        ExtendedPubPrivKeyM.new) ∧
    ((ExtendedPubPrivKeyM.new ⟨⟨8, 1⟩, 0⟩).privkey.attrs.depth =
        (⟨⟨7, 0⟩, 0⟩ : XPrvM).attrs.depth + 1 ∧
      ((ExtendedPubPrivKeyM.new ⟨⟨8, 1⟩, 0⟩).privkey.attrs.depth = 4 ↔
        (⟨⟨7, 0⟩, 0⟩ : XPrvM).attrs.depth = 3)) :=
  ⟨(c9_bip44_prepare_extended_key_no_depth_check ckdConst ⟨⟨7, 0⟩, 0⟩ true).1,
   (c9_bip44_prepare_extended_key_no_depth_check ckdConst ⟨⟨7, 0⟩, 0⟩ true).2
     (ExtendedPubPrivKeyM.new ⟨⟨8, 1⟩, 0⟩) (by decide)⟩

/-- C10: each BIP32 profile's `prepare_extended_key` rejects a parsed key
whose depth is not 0 with the "Key depth must be 0" error, deriving
nothing. -/
theorem c10_bip32_rejects_non_master (ckd : XPrvM → ChildNumberM → Option Nat)
    (k : XPrvM) (h : k.attrs.depth ≠ 0) :
    prepareExtendedKeyBitcoinCore ckd (.ok k) =
      .error (.Unexpected ("Key depth must be " ++ toString (0 : Nat))) ∧
    prepareExtendedKeyMultibit ckd (.ok k) =
      .error (.Unexpected ("Key depth must be " ++ toString (0 : Nat))) ∧
    prepareExtendedKeyBlockExplorer32 ckd (.ok k) =
      .error (.Unexpected ("Key depth must be " ++ toString (0 : Nat))) := by
  refine ⟨?_, ?_, ?_⟩ <;>
    simp [prepareExtendedKeyBitcoinCore, prepareExtendedKeyMultibit,
      prepareExtendedKeyBlockExplorer32, Except.bind, h]

/-- Witness for C10 at a depth-5 key. -/
theorem c10_witness :
    prepareExtendedKeyBitcoinCore ckdConst (.ok ⟨⟨5, 0⟩, 0⟩) =
      .error (.Unexpected ("Key depth must be " ++ toString (0 : Nat))) ∧
    prepareExtendedKeyMultibit ckdConst (.ok ⟨⟨5, 0⟩, 0⟩) =
      .error (.Unexpected ("Key depth must be " ++ toString (0 : Nat))) ∧
    prepareExtendedKeyBlockExplorer32 ckdConst (.ok ⟨⟨5, 0⟩, 0⟩) =
      .error (.Unexpected ("Key depth must be " ++ toString (0 : Nat))) :=
  c10_bip32_rejects_non_master ckdConst ⟨⟨5, 0⟩, 0⟩ (by decide)

/-- C4: for every profile, a parsed key whose depth differs from the
profile's expected depth makes `prepare_address` fail with the
`Unexpected` ("Key depth must be N") policy error — no address is built —
and that variant is distinct from the `GenerateMnemonic`, `SplitMnemonic`,
`Crypto` and `WriteOutput` variants. -/
theorem c4_prepare_address_depth_mismatch_error (p : ClientProfile)
    (ckd : XPrvM → ChildNumberM → Option Nat)
    (mkAddr : XPrvM → Except WalletBipErrM AddressM)
    (k : XPrvM) (index : Nat) (h : k.attrs.depth ≠ extendedKeyDepth p) :
    prepareAddress p ckd mkAddr (.ok k) index =
      .error (.Unexpected ("Key depth must be " ++ toString (extendedKeyDepth p))) ∧
    ∀ s : String,
      WalletBipErrM.Unexpected s ≠ .GenerateMnemonic ∧
      (∀ t : String, WalletBipErrM.Unexpected s ≠ .SplitMnemonic t) ∧
      WalletBipErrM.Unexpected s ≠ .Crypto ∧
      WalletBipErrM.Unexpected s ≠ .WriteOutput := by
  constructor
  · simp [prepareAddress, Except.bind, h]
  · intro s
    refine ⟨?_, ?_, ?_, ?_⟩ <;> simp

/-- Witness for C4: the BitcoinCore profile (expected depth 2) on a depth-0
key. -/
theorem c4_witness :
    prepareAddress ClientProfile.BitcoinCore ckdConst mkAddrConst
        (.ok ⟨⟨0, 0⟩, 0⟩) 0 =
      .error (.Unexpected ("Key depth must be " ++
        toString (extendedKeyDepth ClientProfile.BitcoinCore))) ∧
    ∀ s : String,
      WalletBipErrM.Unexpected s ≠ .GenerateMnemonic ∧
      (∀ t : String, WalletBipErrM.Unexpected s ≠ .SplitMnemonic t) ∧
      WalletBipErrM.Unexpected s ≠ .Crypto ∧
      WalletBipErrM.Unexpected s ≠ .WriteOutput :=
  c4_prepare_address_depth_mismatch_error ClientProfile.BitcoinCore ckdConst
    mkAddrConst ⟨⟨0, 0⟩, 0⟩ 0 (by decide)

theorem except_map_eq_bind {ε α β : Type} (x : Except ε α) (f : α → β) :
    x.map f = x.bind fun a => .ok (f a) := by
  cases x <;> rfl

theorem deriveChain_nil_map {ckd : XPrvM → ChildNumberM → Option Nat}
    {k : XPrvM} {f : XPrvM → ExtendedPubPrivKeyM} :
    (deriveChain ckd k []).map f = .ok (f k) := rfl

theorem deriveChain_cons_map {ckd : XPrvM → ChildNumberM → Option Nat}
    {k : XPrvM} {c : ChildNumberM} {cs : List ChildNumberM}
    {f : XPrvM → ExtendedPubPrivKeyM} :
    (deriveChain ckd k (c :: cs)).map f =
      (deriveChild ckd k c).bind fun k1 => (deriveChain ckd k1 cs).map f := by
  cases h1 : deriveChild ckd k c <;>
    simp [deriveChain, Except.bind, Except.map, h1]

theorem chain_map_ok_depth {ckd : XPrvM → ChildNumberM → Option Nat}
    {k : XPrvM} {cs : List ChildNumberM} {pair : ExtendedPubPrivKeyM}
    (hp : (deriveChain ckd k cs).map ExtendedPubPrivKeyM.new = .ok pair) :
    pair.privkey.attrs.depth = k.attrs.depth + cs.length := by
  cases hd : deriveChain ckd k cs with
  | error e => rw [hd] at hp; exact Except.noConfusion hp
  | ok k' =>
    rw [hd] at hp
    injection hp with hp'
    subst hp'
    simpa [ExtendedPubPrivKeyM.new] using deriveChain_ok_depth cs k k' hd

/-- C3: on a depth-0 master key, BitcoinCore derives exactly `m/0'/0'`
(both hardened) reaching depth 2, Multibit exactly `m/0'/0` (hardened then
non-hardened) reaching depth 2, and the BIP32 BlockExplorer exactly
`m/44'/0'/0'` (all hardened) reaching depth 3. -/
theorem c3_bip32_profiles_derive_documented_paths
    (ckd : XPrvM → ChildNumberM → Option Nat) (k : XPrvM)
    (h : k.attrs.depth = 0) :
    (prepareExtendedKeyBitcoinCore ckd (.ok k) =
      (deriveChain ckd k [⟨0, true⟩, ⟨0, true⟩]).map ExtendedPubPrivKeyM.new) ∧
    (∀ pair, prepareExtendedKeyBitcoinCore ckd (.ok k) = .ok pair →
      pair.privkey.attrs.depth = 2) ∧
    (prepareExtendedKeyMultibit ckd (.ok k) =
      (deriveChain ckd k [⟨0, true⟩, ⟨0, false⟩]).map ExtendedPubPrivKeyM.new) ∧
    (∀ pair, prepareExtendedKeyMultibit ckd (.ok k) = .ok pair →
      pair.privkey.attrs.depth = 2) ∧
    (prepareExtendedKeyBlockExplorer32 ckd (.ok k) =
      (deriveChain ckd k [⟨44, true⟩, ⟨0, true⟩, ⟨0, true⟩]).map
        ExtendedPubPrivKeyM.new) ∧
    (∀ pair, prepareExtendedKeyBlockExplorer32 ckd (.ok k) = .ok pair →
      pair.privkey.attrs.depth = 3) := by
  have hc0t : childNumberNew 0 true = .ok ⟨0, true⟩ := by decide
  have hc0f : childNumberNew 0 false = .ok ⟨0, false⟩ := by decide
  have hc44 : childNumberNew 44 true = .ok ⟨44, true⟩ := by decide
  have hBC : prepareExtendedKeyBitcoinCore ckd (.ok k) =
      (deriveChain ckd k [⟨0, true⟩, ⟨0, true⟩]).map ExtendedPubPrivKeyM.new := by
    cases h1 : deriveChild ckd k ⟨0, true⟩ with
    | error e =>
      simp [prepareExtendedKeyBitcoinCore, deriveChain, Except.bind,
        Except.map, h, hc0t, h1]
    | ok k1 =>
      cases h2 : deriveChild ckd k1 ⟨0, true⟩ with
      | error e =>
        simp [prepareExtendedKeyBitcoinCore, deriveChain, Except.bind,
          Except.map, h, hc0t, h1, h2]
      | ok k2 =>
        simp [prepareExtendedKeyBitcoinCore, deriveChain, Except.bind,
          Except.map, h, hc0t, h1, h2]
  have hMB : prepareExtendedKeyMultibit ckd (.ok k) =
      (deriveChain ckd k [⟨0, true⟩, ⟨0, false⟩]).map ExtendedPubPrivKeyM.new := by
    cases h1 : deriveChild ckd k ⟨0, true⟩ with
    | error e =>
      simp [prepareExtendedKeyMultibit, deriveChain, Except.bind,
        Except.map, h, hc0t, hc0f, h1]
    | ok k1 =>
      cases h2 : deriveChild ckd k1 ⟨0, false⟩ with
      | error e =>
        simp [prepareExtendedKeyMultibit, deriveChain, Except.bind,
          Except.map, h, hc0t, hc0f, h1, h2]
      | ok k2 =>
        simp [prepareExtendedKeyMultibit, deriveChain, Except.bind,
          Except.map, h, hc0t, hc0f, h1, h2]
  have hBE : prepareExtendedKeyBlockExplorer32 ckd (.ok k) =
      (deriveChain ckd k [⟨44, true⟩, ⟨0, true⟩, ⟨0, true⟩]).map
        ExtendedPubPrivKeyM.new := by
    cases h1 : deriveChild ckd k ⟨44, true⟩ with
    | error e =>
      simp [prepareExtendedKeyBlockExplorer32, deriveChain, Except.bind,
        Except.map, h, hc0t, hc44, h1]
    | ok k1 =>
      cases h2 : deriveChild ckd k1 ⟨0, true⟩ with
      | error e =>
        simp [prepareExtendedKeyBlockExplorer32, deriveChain, Except.bind,
          Except.map, h, hc0t, hc44, h1, h2]
      | ok k2 =>
        cases h3 : deriveChild ckd k2 ⟨0, true⟩ with
        | error e =>
          simp [prepareExtendedKeyBlockExplorer32, deriveChain, Except.bind,
            Except.map, h, hc0t, hc44, h1, h2, h3]
        | ok k3 =>
          simp [prepareExtendedKeyBlockExplorer32, deriveChain, Except.bind,
            Except.map, h, hc0t, hc44, h1, h2, h3]
  refine ⟨hBC, ?_, hMB, ?_, hBE, ?_⟩
  · intro pair hp
    rw [hBC] at hp
    have := chain_map_ok_depth hp
    simp [h] at this
    omega
  · intro pair hp
    rw [hMB] at hp
    have := chain_map_ok_depth hp
    simp [h] at this
    omega
  · intro pair hp
    rw [hBE] at hp
    have := chain_map_ok_depth hp
    simp [h] at this
    omega

/-- Witness for C3 at a concrete depth-0 master key and an
always-succeeding combiner. -/
theorem c3_witness :
    (prepareExtendedKeyBitcoinCore ckdConst (.ok ⟨⟨0, 0⟩, 0⟩) =
      (deriveChain ckdConst ⟨⟨0, 0⟩, 0⟩ [⟨0, true⟩, ⟨0, true⟩]).map
        ExtendedPubPrivKeyM.new) ∧
    (∀ pair, prepareExtendedKeyBitcoinCore ckdConst (.ok ⟨⟨0, 0⟩, 0⟩) = .ok pair →
      pair.privkey.attrs.depth = 2) ∧
    (prepareExtendedKeyMultibit ckdConst (.ok ⟨⟨0, 0⟩, 0⟩) =
      (deriveChain ckdConst ⟨⟨0, 0⟩, 0⟩ [⟨0, true⟩, ⟨0, false⟩]).map
        ExtendedPubPrivKeyM.new) ∧
    (∀ pair, prepareExtendedKeyMultibit ckdConst (.ok ⟨⟨0, 0⟩, 0⟩) = .ok pair →
      pair.privkey.attrs.depth = 2) ∧
    (prepareExtendedKeyBlockExplorer32 ckdConst (.ok ⟨⟨0, 0⟩, 0⟩) =
      (deriveChain ckdConst ⟨⟨0, 0⟩, 0⟩ [⟨44, true⟩, ⟨0, true⟩, ⟨0, true⟩]).map
        ExtendedPubPrivKeyM.new) ∧
    (∀ pair, prepareExtendedKeyBlockExplorer32 ckdConst (.ok ⟨⟨0, 0⟩, 0⟩) = .ok pair →
      pair.privkey.attrs.depth = 3) :=
  c3_bip32_profiles_derive_documented_paths ckdConst ⟨⟨0, 0⟩, 0⟩ rfl

/-- C5: for every 32-byte private scalar, the `wif` closure's array
assembly produces exactly `Base58(payload ‖ checksum)` with
`payload = 0x80 ‖ scalar ‖ 0x01` and `checksum` the first 4 bytes of the
double SHA-256 of the payload, for any (standard, 32-byte-output) SHA-256
collaborator and any Base58 encoder. -/
theorem c5_wif_matches_spec_formula (sha256 : List Nat → List Nat)
    (bs58encode : List Nat → String) (privkey : List Nat)
    (hlen : privkey.length = 32)
    (hsha : ∀ x, (sha256 x).length = 32) :
    wif sha256 bs58encode privkey = wifSpecFormula sha256 bs58encode privkey := by
  have hpayload :
      ((copyFromSlice ((List.replicate 34 0).set 0 0x80) 1 privkey).set 33 0x01) =
        0x80 :: privkey ++ [0x01] := by
    have h1 : (List.replicate 34 (0:Nat)).set 0 0x80 = 0x80 :: List.replicate 33 0 := by
      simp [List.replicate_succ]
    rw [h1]
    unfold copyFromSlice
    rw [hlen]
    have ht : (0x80 :: List.replicate 33 (0:Nat)).take 1 = [0x80] := by
      simp [List.replicate_succ]
    have hd : (0x80 :: List.replicate 33 (0:Nat)).drop 33 = [0] := by
      simp [List.drop_replicate]
    rw [ht, hd]
    have e2 : (privkey ++ [(0:Nat)]).set 32 0x01 = privkey ++ [0x01] := by
      rw [List.set_append_right _ _ (by omega)]
      rw [hlen]
      norm_num
    have e3 : ((0x80:Nat) :: (privkey ++ [0])).set (32 + 1) 0x01
        = 0x80 :: (privkey ++ [0]).set 32 0x01 := rfl
    show ((0x80:Nat) :: (privkey ++ [0])).set (32 + 1) 0x01 = 0x80 :: privkey ++ [0x01]
    rw [e3, e2]
    rfl
  have hplen : (0x80 :: privkey ++ [0x01] : List Nat).length = 34 := by
    simp [hlen]
  have hres : ∀ c : List Nat, c.length = 4 →
      copyFromSlice (copyFromSlice (List.replicate 38 0) 0
          (0x80 :: privkey ++ [0x01])) 34 c =
        (0x80 :: privkey ++ [0x01]) ++ c := by
    intro c hc
    have h2 : copyFromSlice (List.replicate 38 0) 0 (0x80 :: privkey ++ [0x01]) =
        (0x80 :: privkey ++ [0x01]) ++ List.replicate 4 0 := by
      unfold copyFromSlice
      rw [hplen]
      simp [List.drop_replicate]
    rw [h2]
    unfold copyFromSlice
    rw [hc]
    have htake : ((0x80 :: privkey ++ [0x01]) ++ List.replicate 4 0).take 34 =
        0x80 :: privkey ++ [0x01] := by
      rw [show (34:Nat) = (0x80 :: privkey ++ [0x01] : List Nat).length from hplen.symm]
      exact List.take_left _ _
    have hdrop : ((0x80 :: privkey ++ [0x01]) ++ List.replicate 4 0).drop (34 + 4) = [] := by
      apply List.drop_eq_nil_of_le
      simp [hlen]
    rw [htake, hdrop]
    simp
  simp only [wif, wifSpecFormula, hpayload]
  congr 1
  exact hres _ (by simp [hsha])

/-- Witness for C5 on the concrete scalar `0,1,…,31` with concrete
collaborator stand-ins. -/
theorem c5_witness :
    (List.range 32).length = 32 ∧
    (∀ x, (shaStub x).length = 32) ∧
    wif shaStub b58Stub (List.range 32) =
      wifSpecFormula shaStub b58Stub (List.range 32) :=
  ⟨by simp, fun _ => by simp [shaStub],
   c5_wif_matches_spec_formula shaStub b58Stub (List.range 32) (by simp)
     (fun _ => by simp [shaStub])⟩

theorem flatMap_byteHex_length (l : List Nat) :
    (l.flatMap byteHex).length = 2 * l.length := by
  induction l with
  | nil => simp
  | cons x xs ih =>
    simp [List.flatMap_cons, byteHex, ih]
    omega

theorem hexDigitChar_lowercase :
    ∀ d < 16, hexDigitChar d ∈ "0123456789abcdef".toList := by decide

/-- C6: for every 33-byte compressed public key, the `p2pkh` closure's
array assembly produces exactly `Base58(payload ‖ checksum)` with
`payload = 0x00 ‖ first 20 bytes of RIPEMD160(SHA256(pubkey))` and the
double-SHA-256 checksum; and the `Address` public-key field is the
prefix-free lowercase hex of the 33 bytes, 66 characters long. -/
theorem c6_p2pkh_and_pubkey_hex_match_spec
    (sha256 ripemd160 : List Nat → List Nat)
    (bs58encode : List Nat → String) (pub priv : List Nat)
    (hpub : pub.length = 33) (hbytes : ∀ b ∈ pub, b < 256)
    (hsha : ∀ x, (sha256 x).length = 32)
    (hrip : ∀ x, (ripemd160 x).length = 20) :
    (AddressM.new sha256 ripemd160 bs58encode pub priv).hash =
      p2pkhSpecFormula sha256 ripemd160 bs58encode pub ∧
    (AddressM.new sha256 ripemd160 bs58encode pub priv).pubkey =
      pub.flatMap byteHex ∧
    (AddressM.new sha256 ripemd160 bs58encode pub priv).pubkey.length = 66 ∧
    ∀ c ∈ (AddressM.new sha256 ripemd160 bs58encode pub priv).pubkey,
      c ∈ "0123456789abcdef".toList := by
  have hdig : (ripemd160 (sha256 pub)).take 20 = ripemd160 (sha256 pub) := by
    apply List.take_of_length_le
    rw [hrip]
  have hdlen : ((ripemd160 (sha256 pub)).take 20).length = 20 := by
    rw [hdig, hrip]
  have hpayload :
      copyFromSlice ((List.replicate 21 0).set 0 0x00) 1
          ((ripemd160 (sha256 pub)).take 20) =
        0x00 :: (ripemd160 (sha256 pub)).take 20 := by
    have h1 : (List.replicate 21 (0:Nat)).set 0 0x00 = 0 :: List.replicate 20 0 := by
      simp [List.replicate_succ]
    rw [h1]
    unfold copyFromSlice
    rw [hdlen]
    have ht : ((0:Nat) :: List.replicate 20 0).take 1 = [0] := by
      simp [List.replicate_succ]
    have hd : ((0:Nat) :: List.replicate 20 0).drop 21 = [] := by
      apply List.drop_eq_nil_of_le
      simp
    rw [ht, hd]
    simp
  have hplen : ((0:Nat) :: (ripemd160 (sha256 pub)).take 20).length = 21 := by
    simp [hdlen]
  have hhash : (AddressM.new sha256 ripemd160 bs58encode pub priv).hash =
      p2pkhSpecFormula sha256 ripemd160 bs58encode pub := by
    show p2pkh sha256 ripemd160 bs58encode pub = _
    simp only [p2pkh, p2pkhSpecFormula, hpayload]
    congr 1
    have h2 : copyFromSlice (List.replicate 25 0) 0
        ((0:Nat) :: (ripemd160 (sha256 pub)).take 20) =
        ((0:Nat) :: (ripemd160 (sha256 pub)).take 20) ++ List.replicate 4 0 := by
      unfold copyFromSlice
      rw [hplen]
      simp [List.drop_replicate]
    rw [h2]
    unfold copyFromSlice
    rw [show ((sha256 (sha256 ((0:Nat) :: (ripemd160 (sha256 pub)).take 20))).take 4).length
          = 4 from by simp [hsha]]
    have htake : (((0:Nat) :: (ripemd160 (sha256 pub)).take 20) ++
        List.replicate 4 0).take 21 = (0:Nat) :: (ripemd160 (sha256 pub)).take 20 := by
      rw [show (21:Nat) = ((0:Nat) :: (ripemd160 (sha256 pub)).take 20).length from hplen.symm]
      exact List.take_left _ _
    have hdrop : (((0:Nat) :: (ripemd160 (sha256 pub)).take 20) ++
        List.replicate 4 0).drop (21 + 4) = [] := by
      apply List.drop_eq_nil_of_le
      simp [hdlen]
    rw [htake, hdrop]
    simp
  have hhex : (AddressM.new sha256 ripemd160 bs58encode pub priv).pubkey =
      pub.flatMap byteHex := by
    show hexEncode pub false = _
    simp [hexEncode]
  refine ⟨hhash, hhex, ?_, ?_⟩
  · rw [hhex, flatMap_byteHex_length, hpub]
  · intro c hc
    rw [hhex] at hc
    rcases List.mem_flatMap.mp hc with ⟨b, hb, hcb⟩
    have hb256 := hbytes b hb
    simp only [byteHex, List.mem_cons, List.not_mem_nil, or_false] at hcb
    rcases hcb with h | h
    · subst h; exact hexDigitChar_lowercase _ (by omega)
    · subst h; exact hexDigitChar_lowercase _ (by omega)

/-- Witness for C6 on the concrete 33-byte key `0,1,…,32` with concrete
collaborator stand-ins. -/
theorem c6_witness :
    ((List.range 33).length = 33 ∧ ∀ b ∈ List.range 33, b < 256) ∧
    ((AddressM.new shaStub ripStub b58Stub (List.range 33) []).hash =
        p2pkhSpecFormula shaStub ripStub b58Stub (List.range 33) ∧
      (AddressM.new shaStub ripStub b58Stub (List.range 33) []).pubkey =
        (List.range 33).flatMap byteHex ∧
      (AddressM.new shaStub ripStub b58Stub (List.range 33) []).pubkey.length = 66 ∧
      ∀ c ∈ (AddressM.new shaStub ripStub b58Stub (List.range 33) []).pubkey,
        c ∈ "0123456789abcdef".toList) :=
  ⟨⟨by simp, by decide⟩,
   c6_p2pkh_and_pubkey_hex_match_spec shaStub ripStub b58Stub (List.range 33) []
     (by simp) (by decide) (fun _ => by simp [shaStub]) (fun _ => by simp [ripStub])⟩

theorem fromHexChar_hexDigitChar : ∀ d < 16, fromHexChar (hexDigitChar d) = .ok d := by
  decide

theorem lor_shiftLeft_eq : ∀ h < 16, ∀ l < 16, ((h <<< 4 ||| l : Nat)) = 16 * h + l := by
  decide

theorem hexDigitChar_ne_x : ∀ d < 16, hexDigitChar d ≠ 'x' := by decide

theorem hexDecodePairs_flatMap :
    ∀ b : List Nat, (∀ x ∈ b, x < 256) →
      hexDecodePairs (b.flatMap byteHex) = .ok b := by
  intro b
  induction b with
  | nil => intro _; rfl
  | cons x xs ih =>
    intro hb
    have hx : x < 256 := hb x (List.mem_cons_self x xs)
    have hhi := fromHexChar_hexDigitChar (x / 16) (by omega)
    have hlo := fromHexChar_hexDigitChar (x % 16) (by omega)
    have hxs := ih fun y hy => hb y (List.mem_cons_of_mem x hy)
    have hval := lor_shiftLeft_eq (x / 16) (by omega) (x % 16) (by omega)
    have hx2 : ((x / 16) <<< 4 ||| x % 16 : Nat) = x := by
      rw [hval]
      omega
    have hflat : (x :: xs).flatMap byteHex =
        hexDigitChar (x / 16) :: hexDigitChar (x % 16) :: xs.flatMap byteHex := by
      simp [List.flatMap_cons, byteHex]
    rw [hflat]
    simp only [hexDecodePairs, hhi, hlo, hxs, Except.bind, Except.map, hx2]

theorem strip0x_of_not_0x (l : List Char)
    (h : ∀ rest : List Char, l ≠ '0' :: 'x' :: rest) : strip0x l = l := by
  unfold strip0x
  split
  · rename_i rest
    exact absurd rfl (h rest)
  · rfl

/-- C8: hex decode is a left inverse of hex encode for every byte list and
prefix flag. -/
theorem c8_hex_decode_encode_roundtrip (b : List Nat) (p : Bool)
    (hb : ∀ x ∈ b, x < 256) :
    hexDecode (hexEncode b p) = .ok b := by
  have hstrip : strip0x (hexEncode b p) = b.flatMap byteHex := by
    cases p with
    | true =>
      show strip0x ('0' :: 'x' :: b.flatMap byteHex) = b.flatMap byteHex
      rfl
    | false =>
      show strip0x ([] ++ b.flatMap byteHex) = b.flatMap byteHex
      rw [List.nil_append]
      apply strip0x_of_not_0x
      intro rest heq
      cases b with
      | nil => exact List.noConfusion heq
      | cons x xs =>
        have hx : x < 256 := hb x (List.mem_cons_self x xs)
        simp only [List.flatMap_cons, byteHex, List.cons_append,
          List.nil_append, List.cons.injEq] at heq
        exact hexDigitChar_ne_x (x % 16) (by omega) heq.2.1
  have hlen : (b.flatMap byteHex).length % 2 = 0 := by
    rw [flatMap_byteHex_length]
    omega
  show (if (strip0x (hexEncode b p)).length % 2 ≠ 0
      then Except.error "hex string has odd length"
      else hexDecodePairs (strip0x (hexEncode b p))) = .ok b
  rw [hstrip]
  rw [if_neg (by omega)]
  exact hexDecodePairs_flatMap b hb

/-- Witness for C8 on the bytes `[0, 15, 160, 255]` with the `0x` prefix. -/
theorem c8_witness :
    (∀ x ∈ [(0:Nat), 15, 160, 255], x < 256) ∧
    hexDecode (hexEncode [0, 15, 160, 255] true) = .ok [0, 15, 160, 255] :=
  ⟨by decide, c8_hex_decode_encode_roundtrip [0, 15, 160, 255] true (by decide)⟩

/-- C7: with the shuffle outcome a permutation of `0..len-1`, `split`
succeeds exactly when 12 ≤ len ≤ 24 and len is a multiple of 3, returning
a list of the same length in which the `⌊len/3⌋` distinct positions kept
by the truncated shuffle hold the placeholder and every other position
holds the input word unchanged (so, when no input word equals the
placeholder, exactly `⌊len/3⌋` positions hold it); any other length fails
with the SplitMnemonic error. -/
theorem c7_split_hides_a_third (perm : List Nat) (mnemonic : List String)
    (hperm : perm.Perm (List.range mnemonic.length)) :
    (¬ (12 ≤ mnemonic.length ∧ mnemonic.length ≤ 24 ∧ mnemonic.length % 3 = 0) →
      split perm mnemonic = .error (.SplitMnemonic "invalid word count")) ∧
    ((12 ≤ mnemonic.length ∧ mnemonic.length ≤ 24 ∧ mnemonic.length % 3 = 0) →
      ∃ out, split perm mnemonic = .ok out ∧
        out.length = mnemonic.length ∧
        (perm.take (mnemonic.length / 3)).Nodup ∧
        (perm.take (mnemonic.length / 3)).length = mnemonic.length / 3 ∧
        (∀ i ∈ perm.take (mnemonic.length / 3), i < mnemonic.length) ∧
        (∀ i, i < mnemonic.length →
          (i ∈ perm.take (mnemonic.length / 3) → out.getD i "" = HIDED) ∧
          (i ∉ perm.take (mnemonic.length / 3) → out.getD i "" = mnemonic.getD i "")) ∧
        (HIDED ∉ mnemonic → out.count HIDED = mnemonic.length / 3)) := by
  constructor
  · intro h
    have hiv : is_invalid_word_count mnemonic.length = true := by
      simp [is_invalid_word_count, MIN_NB_WORDS, MAX_NB_WORDS]
      omega
    unfold split
    rw [if_pos hiv]
  · intro h
    have hiv : is_invalid_word_count mnemonic.length = false := by
      simp [is_invalid_word_count, MIN_NB_WORDS, MAX_NB_WORDS]
      omega
    have hsplit : split perm mnemonic =
        .ok (mnemonic.enum.map fun p =>
          if p.1 ∈ perm.take (mnemonic.length / 3) then HIDED else p.2) := by
      unfold split
      rw [if_neg (by simp [hiv])]
    refine ⟨_, hsplit, ?_, ?_, ?_, ?_, ?_, ?_⟩
    · simp
    · exact (hperm.nodup_iff.mpr (List.nodup_range _)).sublist
        (List.take_sublist _ _)
    · rw [List.length_take, hperm.length_eq, List.length_range]
      omega
    · intro i hi
      have : i ∈ perm := List.take_subset _ _ hi
      have := hperm.subset this
      exact List.mem_range.mp this
    · intro i hilt
      have hget : (mnemonic.enum.map fun p =>
          if p.1 ∈ perm.take (mnemonic.length / 3) then HIDED else p.2).get? i =
          some (if i ∈ perm.take (mnemonic.length / 3) then HIDED
            else mnemonic.getD i "") := by
        rw [List.get?_map, List.enum_get?]
        have hsome : mnemonic.get? i = some (mnemonic.getD i "") := by
          rw [List.getD_eq_get?]
          cases hg : mnemonic.get? i with
          | none => exact absurd (List.get?_eq_none.mp hg) (by omega)
          | some w => rfl
        rw [hsome]
        rfl
      constructor
      · intro hmem
        rw [List.getD_eq_get?, hget]
        simp [hmem]
      · intro hmem
        rw [List.getD_eq_get?, hget]
        simp [hmem]
    · intro hno
      have h1 : (mnemonic.enum.map fun p =>
          if p.1 ∈ perm.take (mnemonic.length / 3) then HIDED else p.2).count HIDED =
          mnemonic.enum.countP fun p =>
            ((if p.1 ∈ perm.take (mnemonic.length / 3) then HIDED else p.2) == HIDED) := by
        show List.countP _ _ = _
        rw [List.countP_map]
        rfl
      have h2 : (mnemonic.enum.countP fun p =>
            ((if p.1 ∈ perm.take (mnemonic.length / 3) then HIDED else p.2) == HIDED)) =
          mnemonic.enum.countP fun p => decide (p.1 ∈ perm.take (mnemonic.length / 3)) := by
        apply List.countP_congr
        intro a ha
        obtain ⟨i, w⟩ := a
        have hmem := List.mem_enum ha
        have hsnd : w ∈ mnemonic := hmem.2 ▸ List.getElem_mem hmem.1
        have hwne : w ≠ HIDED := fun e => hno (e ▸ hsnd)
        by_cases hm : i ∈ perm.take (mnemonic.length / 3)
        · simp [hm]
        · simp [hm, hwne]
      have h3 : (mnemonic.enum.countP fun p =>
            decide (p.1 ∈ perm.take (mnemonic.length / 3))) =
          (List.range mnemonic.length).countP
            fun i => decide (i ∈ perm.take (mnemonic.length / 3)) := by
        rw [← List.enum_map_fst mnemonic, List.countP_map]
        rfl
      have hSsub : ∀ i ∈ perm.take (mnemonic.length / 3), i < mnemonic.length := by
        intro i hi
        exact List.mem_range.mp (hperm.subset (List.take_subset _ _ hi))
      have hSnodup : (perm.take (mnemonic.length / 3)).Nodup :=
        (hperm.nodup_iff.mpr (List.nodup_range _)).sublist (List.take_sublist _ _)
      have h4 : ((List.range mnemonic.length).countP
            fun i => decide (i ∈ perm.take (mnemonic.length / 3))) =
          (perm.take (mnemonic.length / 3)).length := by
        rw [List.countP_eq_length_filter]
        apply List.Perm.length_eq
        apply (List.perm_ext_iff_of_nodup
          ((List.nodup_range _).filter _) hSnodup).mpr
        intro a
        simp only [List.mem_filter, List.mem_range, decide_eq_true_eq]
        constructor
        · exact fun hx => hx.2
        · exact fun hx => ⟨hSsub a hx, hx⟩
      rw [h1, h2, h3, h4]
      rw [List.length_take, hperm.length_eq, List.length_range]
      omega

/-- Concrete 12-word mnemonic for the C7 witness. -/
def wordsTwelve : List String :=
  ["alpha", "bravo", "china", "delta", "echo", "fox",
   "golf", "hotel", "india", "julia", "kilo", "lima"]

/-- Witness for C7: the identity shuffle on a concrete 12-word mnemonic. -/
theorem c7_witness :
    (¬ (12 ≤ wordsTwelve.length ∧ wordsTwelve.length ≤ 24 ∧
        wordsTwelve.length % 3 = 0) →
      split (List.range 12) wordsTwelve =
        .error (.SplitMnemonic "invalid word count")) ∧
    ((12 ≤ wordsTwelve.length ∧ wordsTwelve.length ≤ 24 ∧
        wordsTwelve.length % 3 = 0) →
      ∃ out, split (List.range 12) wordsTwelve = .ok out ∧
        out.length = wordsTwelve.length ∧
        ((List.range 12).take (wordsTwelve.length / 3)).Nodup ∧
        ((List.range 12).take (wordsTwelve.length / 3)).length =
          wordsTwelve.length / 3 ∧
        (∀ i ∈ (List.range 12).take (wordsTwelve.length / 3),
          i < wordsTwelve.length) ∧
        (∀ i, i < wordsTwelve.length →
          (i ∈ (List.range 12).take (wordsTwelve.length / 3) →
            out.getD i "" = HIDED) ∧
          (i ∉ (List.range 12).take (wordsTwelve.length / 3) →
            out.getD i "" = wordsTwelve.getD i "")) ∧
        (HIDED ∉ wordsTwelve → out.count HIDED = wordsTwelve.length / 3)) :=
  c7_split_hides_a_third (List.range 12) wordsTwelve (by simp [wordsTwelve])
